import Mathlib

/-!
# Interface segregation example

A verification development for `SOLID_Principles/interface_segregation.cpp`.

The file has two layers, both taken from the C++ source:

* the *dynamic* layer: every member function body is one `std::cout << "...\n"` insertion,
  embedded as a function on the state of standard output;
* the *static* layer: the four class declarations (`Readable`, `Searchable`, `Paperback`,
  `Audiobook`) with their bases, member declarations and access specifiers, together with
  the C++ rules for member name lookup, access checking and virtual dispatch.
-/

namespace InterfaceSegregation

/-! ## Standard output -/

/-- Standard output, recorded as the chunks inserted by `operator<<`, oldest first. -/
structure Console where
  writes : List String
  deriving DecidableEq, Repr

/-- Standard output before anything has been written. -/
def Console.empty : Console := ⟨[]⟩

/-- The text on standard output: all inserted chunks, concatenated in insertion order. -/
def Console.contents (c : Console) : String := String.join c.writes

/-- One insertion of a chunk at the end of standard output. -/
def Console.insert (c : Console) (s : String) : Console := ⟨c.writes ++ [s]⟩

/-- The ways a C++ statement can fail to return normally. -/
inductive Fault
  | exception
  | pureVirtualCall
  deriving DecidableEq, Repr

/-- A statement (or a `void` member function body): it either returns normally with a new
state of standard output, or ends with a fault. -/
abbrev Stmt := Console → Except Fault Console

/-- The statement `std::cout << s;`. The stream `std::cout` is left with its default
exception mask by the program, so the insertion never throws. -/
def cout (s : String) : Stmt := fun c => Except.ok (c.insert s)

/-! ## The two concrete classes (lines 31-81) -/

/-- The class `Paperback`: it has no data members. -/
structure Paperback where
  deriving DecidableEq, Repr

/-- The class `Audiobook`: it has no data members. -/
structure Audiobook where
  deriving DecidableEq, Repr

/-- The body of `Paperback::open`. -/
def Paperback.open (_self : Paperback) : Stmt := cout "Opening the paperback\n"

/-- The body of `Paperback::close`. -/
def Paperback.close (_self : Paperback) : Stmt := cout "Closing the paperback\n"

/-- The body of `Paperback::read`. -/
def Paperback.read (_self : Paperback) : Stmt := cout "Reading the paperback\n"

/-- The body of `Paperback::bookmark`. -/
def Paperback.bookmark (_self : Paperback) : Stmt := cout "Bookmarking the paperback\n"

/-- The body of `Audiobook::open`. -/
def Audiobook.open (_self : Audiobook) : Stmt := cout "Opening the audiobook\n"

/-- The body of `Audiobook::close`. -/
def Audiobook.close (_self : Audiobook) : Stmt := cout "Closing the audiobook\n"

/-- The body of `Audiobook::read`. -/
def Audiobook.read (_self : Audiobook) : Stmt := cout "Reading the audiobook\n"

/-- The body of `Audiobook::bookmark`. -/
def Audiobook.bookmark (_self : Audiobook) : Stmt := cout "Bookmarking the audiobook\n"

/-- The body of `Audiobook::search`. -/
def Audiobook.search (_self : Audiobook) : Stmt := cout "Searching the audiobook\n"

/-- The function `main` (lines 83-87): it declares `Audiobook ab;`, calls `ab.search();` and
falls off the end, which in `main` means `return 0;`. The result is the exit status together
with the final state of standard output. -/
def main : Console → Except Fault (Int × Console) := fun c => do
  let ab : Audiobook := Audiobook.mk
  let c1 ← ab.search c
  return (0, c1)

/-! ## The class declarations (lines 12-81) -/

/-- The member function names that occur in the file. -/
inductive Method
  | open | close | read | bookmark | search
  deriving DecidableEq, Repr

/-- Every member function name of the file. -/
def Method.all : List Method := [.open, .close, .read, .bookmark, .search]

/-- The four classes of the file. -/
inductive ClassName
  | Readable | Searchable | Paperback | Audiobook
  deriving DecidableEq, Repr

/-- Every class of the file. -/
def ClassName.all : List ClassName := [.Readable, .Searchable, .Paperback, .Audiobook]

/-- The C++ access levels. -/
inductive Access
  | privateAccess | protectedAccess | publicAccess
  deriving DecidableEq, Repr

/-- One member function declaration of a class: its name, the access specifier in force
where it is declared, and its body (`none` for a pure virtual function, `= 0`). Every
member function of the file is virtual: declared `virtual` in the two interfaces and
`override` in the two concrete classes. -/
structure Member where
  name : Method
  access : Access
  body : Option Stmt

/-- A class declaration: the base class with the access of the inheritance (if any) and the
member declarations in source order. -/
structure ClassDecl where
  base : Option (Access × ClassName)
  members : List Member

/-- The four class declarations as written in the source. `Readable` and `Searchable` are
declared with the keyword `class` and contain no access specifier, so their members have
the default access of a `class`, which is private. `Paperback` and `Audiobook` declare their
members after `public:`. All three inheritances are written `: public`. -/
def classDecl : ClassName → ClassDecl
  | .Readable =>
    ⟨none,
     [⟨.open, .privateAccess, none⟩,
      ⟨.close, .privateAccess, none⟩,
      ⟨.read, .privateAccess, none⟩,
      ⟨.bookmark, .privateAccess, none⟩]⟩
  | .Searchable =>
    ⟨some (.publicAccess, .Readable),
     [⟨.search, .privateAccess, none⟩]⟩
  | .Paperback =>
    ⟨some (.publicAccess, .Readable),
     [⟨.open, .publicAccess, some (Paperback.open Paperback.mk)⟩,
      ⟨.close, .publicAccess, some (Paperback.close Paperback.mk)⟩,
      ⟨.read, .publicAccess, some (Paperback.read Paperback.mk)⟩,
      ⟨.bookmark, .publicAccess, some (Paperback.bookmark Paperback.mk)⟩]⟩
  | .Audiobook =>
    ⟨some (.publicAccess, .Searchable),
     [⟨.open, .publicAccess, some (Audiobook.open Audiobook.mk)⟩,
      ⟨.close, .publicAccess, some (Audiobook.close Audiobook.mk)⟩,
      ⟨.read, .publicAccess, some (Audiobook.read Audiobook.mk)⟩,
      ⟨.bookmark, .publicAccess, some (Audiobook.bookmark Audiobook.mk)⟩,
      ⟨.search, .publicAccess, some (Audiobook.search Audiobook.mk)⟩]⟩

/-- The member function names a class declares itself, in source order. -/
def declared (C : ClassName) : List Method := (classDecl C).members.map Member.name

/-! ## Name lookup, access and virtual dispatch -/

/-- Access of a base class member when it is named through a derived class, for an
inheritance with access `edge`; `none` means the member is inaccessible. -/
def Access.inherit (edge : Access) : Access → Option Access
  | .privateAccess => none
  | .protectedAccess => some (if edge = .privateAccess then .privateAccess else .protectedAccess)
  | .publicAccess => some edge

/-- The result of a successful member name lookup: the class whose declaration was found,
the access of the name as seen from the class the lookup started in (`none` when it is
inaccessible), and the body of the declaration found. -/
structure Found where
  declaredIn : ClassName
  access : Option Access
  body : Option Stmt

/-- Member name lookup in the scope of class `C`: the declaration in `C` itself if there is
one, otherwise the result of the lookup in the base class. The first argument bounds the
length of the inheritance chain that is followed. -/
def lookupFrom : Nat → ClassName → Method → Option Found
  | 0, _, _ => none
  | fuel + 1, C, m =>
    match (classDecl C).members.find? (fun d => decide (d.name = m)) with
    | some d => some ⟨C, some d.access, d.body⟩
    | none =>
      match (classDecl C).base with
      | none => none
      | some (edge, B) =>
        match lookupFrom fuel B m with
        | none => none
        | some f => some ⟨f.declaredIn, f.access.bind (Access.inherit edge), f.body⟩

/-- Member name lookup; an inheritance chain of the file has at most as many classes as
there are classes. -/
def lookup (C : ClassName) (m : Method) : Option Found :=
  lookupFrom ClassName.all.length C m

/-- The operations of a class: the member function names that lookup finds in its scope,
declared or inherited. -/
def operations (C : ClassName) : List Method :=
  Method.all.filter (fun m => (lookup C m).isSome)

/-- A class is abstract when one of its member functions has a pure virtual final
overrider. No object of an abstract class can be created. -/
def isAbstract (C : ClassName) : Bool :=
  Method.all.any (fun m =>
    match lookup C m with
    | some f => f.body.isNone
    | none => false)

/-- Whether an object of class `D` can be viewed as a `S` by client code: `S` is `D` or a
base of `D` reached through public inheritances only. -/
def convertibleFrom : Nat → ClassName → ClassName → Bool
  | 0, _, _ => false
  | fuel + 1, D, S =>
    decide (D = S) ||
      match (classDecl D).base with
      | some (.publicAccess, B) => convertibleFrom fuel B S
      | _ => false

/-- Whether an object of class `D` can be viewed as a `S` by client code. -/
def convertible (D S : ClassName) : Bool := convertibleFrom ClassName.all.length D S

/-- The reasons for which the compiler rejects a member function call of client code. -/
inductive CompileError
  | abstractObject
  | notABase
  | noMember
  | inaccessible
  deriving DecidableEq, Repr

/-- The static check of the call `r.m()` in client code (code that is neither a member nor
a friend of a class, such as `main`), where `r` has static type `S`: the name must be found
by lookup in `S` and must be public there. -/
def staticCheck (S : ClassName) (m : Method) : Option CompileError :=
  match lookup S m with
  | none => some .noMember
  | some f => if f.access = some .publicAccess then none else some .inaccessible

/-- Virtual dispatch of `m` on an object of class `D`: the body of the final overrider,
which with single inheritance is the declaration found by lookup from `D`. -/
def dispatch (D : ClassName) (m : Method) : Stmt :=
  match lookup D m with
  | some ⟨_, _, some body⟩ => body
  | _ => fun _ => Except.error Fault.pureVirtualCall

/-- The static check of the client code `D obj; S& r = obj; r.m();`: `none` when the
compiler accepts it. -/
def checkCall (S D : ClassName) (m : Method) : Option CompileError :=
  if isAbstract D then some .abstractObject
  else if !convertible D S then some .notABase
  else staticCheck S m

/-- The client code `D obj; S& r = obj; r.m();`: either a compile error, or the statement
that the call executes. -/
def callVia (S D : ClassName) (m : Method) : Except CompileError Stmt :=
  match checkCall S D m with
  | some e => Except.error e
  | none => Except.ok (dispatch D m)

/-! ## Invocations and runs -/

/-- An invocation that client code can make: a member function call `obj.m()` on an object
`obj` declared with class `cls`, accepted by the compiler. -/
structure Invocation where
  cls : ClassName
  method : Method
  accepted : checkCall cls cls method = none

/-- What an invocation executes. -/
def Invocation.run (i : Invocation) : Stmt := dispatch i.cls i.method

/-- A finite sequence of invocations, executed in order; a fault ends the run. -/
def runAll : List Invocation → Stmt
  | [] => fun c => Except.ok c
  | i :: rest => fun c =>
    match i.run c with
    | Except.ok c1 => runAll rest c1
    | Except.error f => Except.error f

/-- The text a statement leaves on standard output when it is started on empty standard
output; `none` when it does not return normally. -/
def emitted (s : Stmt) : Option String :=
  match s Console.empty with
  | Except.ok c => some c.contents
  | Except.error _ => none

/-- The text of an invocation: what it leaves on empty standard output. -/
def Invocation.message (i : Invocation) : String := (emitted i.run).getD ""

/-- The invocations of the file: the four public member functions of `Paperback` and the
five of `Audiobook`. -/
def Invocation.all : List Invocation :=
  [⟨.Paperback, .open, by decide⟩, ⟨.Paperback, .close, by decide⟩,
   ⟨.Paperback, .read, by decide⟩, ⟨.Paperback, .bookmark, by decide⟩,
   ⟨.Audiobook, .open, by decide⟩, ⟨.Audiobook, .close, by decide⟩,
   ⟨.Audiobook, .read, by decide⟩, ⟨.Audiobook, .bookmark, by decide⟩,
   ⟨.Audiobook, .search, by decide⟩]

/-- The newline character. -/
def newline : Char := Char.ofNat 10

/-- The statement `s` returns normally from every state of standard output, and its whole
effect is one insertion of the chunk `w` at the end of standard output. -/
def Emits (s : Stmt) (w : String) : Prop :=
  ∀ c : Console, ∃ c1 : Console,
    s c = Except.ok c1 ∧ c1.writes = c.writes ++ [w] ∧ c1.contents = c.contents ++ w

/-! ## Auxiliary facts -/

theorem Console.contents_insert (c : Console) (s : String) :
    (c.insert s).contents = c.contents ++ s := by
  apply String.ext
  simp [Console.contents, Console.insert, String.data_join]

theorem Console.contents_mk_append (l1 l2 : List String) :
    (Console.mk (l1 ++ l2)).contents = (Console.mk l1).contents ++ String.join l2 := by
  apply String.ext
  simp [Console.contents, String.data_join]

theorem cout_emits (w : String) : Emits (cout w) w :=
  fun c => ⟨c.insert w, rfl, rfl, Console.contents_insert c w⟩

/-- Case analysis on an invocation: the compiler accepts exactly nine of the twenty
(class, member function name) pairs. -/
theorem Invocation.exhaust (P : Invocation → Prop)
    (h1 : P ⟨.Paperback, .open, by decide⟩) (h2 : P ⟨.Paperback, .close, by decide⟩)
    (h3 : P ⟨.Paperback, .read, by decide⟩) (h4 : P ⟨.Paperback, .bookmark, by decide⟩)
    (h5 : P ⟨.Audiobook, .open, by decide⟩) (h6 : P ⟨.Audiobook, .close, by decide⟩)
    (h7 : P ⟨.Audiobook, .read, by decide⟩) (h8 : P ⟨.Audiobook, .bookmark, by decide⟩)
    (h9 : P ⟨.Audiobook, .search, by decide⟩) : ∀ i : Invocation, P i := by
  rintro ⟨cls, m, h⟩
  cases cls <;> cases m <;>
    first
      | exact absurd h (by decide)
      | exact h1 | exact h2 | exact h3 | exact h4 | exact h5
      | exact h6 | exact h7 | exact h8 | exact h9

theorem Invocation.mem_all : ∀ i : Invocation, i ∈ Invocation.all := by
  apply Invocation.exhaust <;> simp [Invocation.all]

theorem Invocation.ext_iff_pair (i j : Invocation) :
    i = j ↔ i.cls = j.cls ∧ i.method = j.method := by
  constructor
  · rintro rfl
    exact ⟨rfl, rfl⟩
  · rcases i with ⟨c1, m1, h1⟩
    rcases j with ⟨c2, m2, h2⟩
    rintro ⟨hc, hm⟩
    cases hc
    cases hm
    rfl

theorem Invocation.run_eq : ∀ (i : Invocation) (c : Console),
    i.run c = Except.ok (c.insert i.message) := by
  apply Invocation.exhaust <;> exact fun c => rfl

theorem runAll_eq (is : List Invocation) : ∀ c : Console,
    runAll is c = Except.ok ⟨c.writes ++ is.map Invocation.message⟩ := by
  induction is with
  | nil => intro c; simp [runAll]
  | cons i rest ih =>
    intro c
    simp [runAll, Invocation.run_eq, ih, Console.insert]

theorem runAll_contents (is : List Invocation) (c : Console) :
    Except.map Console.contents (runAll is c) =
      Except.ok (c.contents ++ String.join (is.map Invocation.message)) := by
  rw [runAll_eq]
  show Except.ok (Console.contents ⟨c.writes ++ is.map Invocation.message⟩) = _
  rw [Console.contents_mk_append]

/-- Every message is a line: some text without a newline, followed by one newline. -/
theorem Invocation.message_line : ∀ i : Invocation,
    i.message.data = i.message.data.dropLast ++ [newline] ∧
      newline ∉ i.message.data.dropLast := by
  apply Invocation.exhaust <;> decide

/-- Different invocations have different messages. -/
theorem Invocation.message_injective : ∀ i j : Invocation, i.message = j.message → i = j := by
  apply Invocation.exhaust <;> apply Invocation.exhaust <;>
    first
      | (intro _; rfl)
      | (intro h; exact absurd h (by decide))

/-- Two texts that agree, each cut at its first occurrence of `x`, agree piecewise. -/
theorem split_at_first {α : Type} (x : α) : ∀ (a b r s : List α),
    x ∉ a → x ∉ b → a ++ x :: r = b ++ x :: s → a = b ∧ r = s := by
  intro a
  induction a with
  | nil =>
    intro b r s _ hb h
    cases b with
    | nil => exact ⟨rfl, by simpa using h⟩
    | cons y b =>
      simp only [List.nil_append, List.cons_append, List.cons.injEq] at h
      exact absurd (h.1 ▸ List.mem_cons_self y b) hb
  | cons y a ih =>
    intro b r s ha hb h
    cases b with
    | nil =>
      simp only [List.nil_append, List.cons_append, List.cons.injEq] at h
      exact absurd (h.1 ▸ List.mem_cons_self y a) ha
    | cons z b =>
      simp only [List.cons_append, List.cons.injEq] at h
      have ha1 : x ∉ a := fun hm => ha (List.mem_cons_of_mem y hm)
      have hb1 : x ∉ b := fun hm => hb (List.mem_cons_of_mem z hm)
      obtain ⟨hab, hrs⟩ := ih b r s ha1 hb1 h.2
      exact ⟨by rw [h.1, hab], hrs⟩

/-- The characters of the concatenated messages determine the invocation sequence. -/
theorem messages_flatten_injective : ∀ is js : List Invocation,
    (is.map (fun i => i.message.data)).flatten = (js.map (fun i => i.message.data)).flatten →
      is = js := by
  intro is
  induction is with
  | nil =>
    intro js h
    cases js with
    | nil => rfl
    | cons j js =>
      have hj := (Invocation.message_line j).1
      rw [List.map_cons, List.flatten_cons, hj] at h
      simp at h
  | cons i is ih =>
    intro js h
    cases js with
    | nil =>
      have hi := (Invocation.message_line i).1
      rw [List.map_cons, List.flatten_cons, hi] at h
      simp at h
    | cons j js =>
      obtain ⟨hi, hin⟩ := Invocation.message_line i
      obtain ⟨hj, hjn⟩ := Invocation.message_line j
      have h1 : i.message.data.dropLast ++ newline :: (is.map (fun i => i.message.data)).flatten
          = j.message.data.dropLast ++ newline :: (js.map (fun i => i.message.data)).flatten := by
        have e : ∀ (k : Invocation) (t : List Char),
            k.message.data.dropLast ++ newline :: t = k.message.data ++ t := by
          intro k t
          conv_rhs => rw [(Invocation.message_line k).1]
          simp
        rw [e, e]
        simpa using h
      obtain ⟨hd, ht⟩ := split_at_first newline _ _ _ _ hin hjn h1
      have hm : i.message = j.message := by
        apply String.ext
        rw [hi, hj, hd]
      rw [Invocation.message_injective i j hm, ih js ht]

theorem runAll_output_injective : Function.Injective
    (fun is : List Invocation => Except.map Console.contents (runAll is Console.empty)) := by
  intro is js h
  simp only [runAll_contents] at h
  have h2 := congrArg String.data (Except.ok.inj h)
  simp only [String.data_append, String.data_join, List.map_map] at h2
  exact messages_flatten_injective is js (by simpa [Function.comp_def] using h2)

/-- Every invocation is one of the nine listed (class, member function) pairs, with the
listed text. -/
theorem Invocation.table : ∀ i : Invocation,
    (i.cls, i.method, i.message) ∈
      [(ClassName.Paperback, Method.open, "Opening the paperback\n"),
       (ClassName.Paperback, Method.close, "Closing the paperback\n"),
       (ClassName.Paperback, Method.read, "Reading the paperback\n"),
       (ClassName.Paperback, Method.bookmark, "Bookmarking the paperback\n"),
       (ClassName.Audiobook, Method.open, "Opening the audiobook\n"),
       (ClassName.Audiobook, Method.close, "Closing the audiobook\n"),
       (ClassName.Audiobook, Method.read, "Reading the audiobook\n"),
       (ClassName.Audiobook, Method.bookmark, "Bookmarking the audiobook\n"),
       (ClassName.Audiobook, Method.search, "Searching the audiobook\n")] := by
  apply Invocation.exhaust <;> decide

theorem emitted_run (i : Invocation) : emitted i.run = some i.message := by
  revert i
  apply Invocation.exhaust <;> decide

/-! ## The program's output -/

/-- C1: `main`, started on empty standard output, returns normally with exit status 0 and
leaves exactly the one chunk and the one line `Searching the audiobook` on standard output;
from every state its effect is that of the single call `ab.search()`; and the only sequence
of invocations of the two variants that leaves the same text is the single invocation of
`search` on an `Audiobook`. -/
theorem main_prints_only_search_line :
    (∃ c : Console, main Console.empty = Except.ok (0, c) ∧
        c.writes = ["Searching the audiobook\n"] ∧
        c.contents = "Searching the audiobook\n") ∧
    (∀ c : Console,
        main c = Except.map (fun c1 => ((0 : Int), c1)) (Audiobook.search Audiobook.mk c)) ∧
    (∀ is : List Invocation,
        Except.map Console.contents (runAll is Console.empty)
          = Except.map (fun r => r.2.contents) (main Console.empty) →
        is.map (fun i => (i.cls, i.method)) = [(ClassName.Audiobook, Method.search)]) := by
  refine ⟨⟨Console.empty.insert "Searching the audiobook\n", rfl, rfl, by decide⟩,
    fun c => rfl, ?_⟩
  intro is h
  have hs : Except.map (fun r => r.2.contents) (main Console.empty)
      = Except.map Console.contents
          (runAll [⟨ClassName.Audiobook, Method.search, by decide⟩] Console.empty) := by
    rfl
  rw [hs] at h
  rw [runAll_output_injective h]
  rfl

/-- Witness for C1: the single invocation of `Audiobook::search` does leave the text that
`main` leaves. -/
theorem main_prints_only_search_line_witness :
    Except.map Console.contents
        (runAll [⟨ClassName.Audiobook, Method.search, by decide⟩] Console.empty)
      = Except.map (fun r => r.2.contents) (main Console.empty) ∧
    [(⟨ClassName.Audiobook, Method.search, by decide⟩ : Invocation)].map
        (fun i => (i.cls, i.method)) = [(ClassName.Audiobook, Method.search)] :=
  ⟨rfl, main_prints_only_search_line.2.2 [⟨ClassName.Audiobook, Method.search, by decide⟩]
    rfl⟩

/-- C2: on a `Paperback`, each of the four member functions returns normally from every
state of standard output and appends exactly its fixed line: `open` appends
`Opening the paperback`, `close` appends `Closing the paperback`, `read` appends
`Reading the paperback`, `bookmark` appends `Bookmarking the paperback`, each followed by one
newline; and these bodies are what the four calls on a `Paperback` object execute. -/
theorem paperback_messages (p : Paperback) :
    Emits p.open "Opening the paperback\n" ∧
    Emits p.close "Closing the paperback\n" ∧
    Emits p.read "Reading the paperback\n" ∧
    Emits p.bookmark "Bookmarking the paperback\n" ∧
    callVia ClassName.Paperback ClassName.Paperback Method.open = Except.ok p.open ∧
    callVia ClassName.Paperback ClassName.Paperback Method.close = Except.ok p.close ∧
    callVia ClassName.Paperback ClassName.Paperback Method.read = Except.ok p.read ∧
    callVia ClassName.Paperback ClassName.Paperback Method.bookmark = Except.ok p.bookmark :=
  ⟨cout_emits _, cout_emits _, cout_emits _, cout_emits _, rfl, rfl, rfl, rfl⟩

/-- C3: on an `Audiobook`, each of the five member functions returns normally from every
state of standard output and appends exactly its fixed line: `open` appends
`Opening the audiobook`, `close` appends `Closing the audiobook`, `read` appends
`Reading the audiobook`, `bookmark` appends `Bookmarking the audiobook`, `search` appends
`Searching the audiobook`, each followed by one newline; and these bodies are what the five
calls on an `Audiobook` object execute. -/
theorem audiobook_messages (a : Audiobook) :
    Emits a.open "Opening the audiobook\n" ∧
    Emits a.close "Closing the audiobook\n" ∧
    Emits a.read "Reading the audiobook\n" ∧
    Emits a.bookmark "Bookmarking the audiobook\n" ∧
    Emits a.search "Searching the audiobook\n" ∧
    callVia ClassName.Audiobook ClassName.Audiobook Method.open = Except.ok a.open ∧
    callVia ClassName.Audiobook ClassName.Audiobook Method.close = Except.ok a.close ∧
    callVia ClassName.Audiobook ClassName.Audiobook Method.read = Except.ok a.read ∧
    callVia ClassName.Audiobook ClassName.Audiobook Method.bookmark = Except.ok a.bookmark ∧
    callVia ClassName.Audiobook ClassName.Audiobook Method.search = Except.ok a.search :=
  ⟨cout_emits _, cout_emits _, cout_emits _, cout_emits _, cout_emits _,
    rfl, rfl, rfl, rfl, rfl⟩

/-- C4: for every finite sequence of invocations and every prior state of standard output,
the run returns normally and the resulting text is the prior text followed by the texts of
the invocations in invocation order, where the text of an invocation is the fixed one of
its (class, member function) pair; appending one more invocation to a sequence appends
that invocation's own text whatever ran before. In particular `open`, `close`, `read`,
`bookmark` on a `Paperback`, from empty standard output, leave the four paperback lines in
that order. -/
theorem output_in_invocation_order :
    (∀ (is : List Invocation) (c : Console), ∃ c1 : Console,
        runAll is c = Except.ok c1 ∧
        c1.writes = c.writes ++ is.map Invocation.message ∧
        c1.contents = c.contents ++ String.join (is.map Invocation.message)) ∧
    (∀ i : Invocation, (i.cls, i.method, i.message) ∈
      [(ClassName.Paperback, Method.open, "Opening the paperback\n"),
       (ClassName.Paperback, Method.close, "Closing the paperback\n"),
       (ClassName.Paperback, Method.read, "Reading the paperback\n"),
       (ClassName.Paperback, Method.bookmark, "Bookmarking the paperback\n"),
       (ClassName.Audiobook, Method.open, "Opening the audiobook\n"),
       (ClassName.Audiobook, Method.close, "Closing the audiobook\n"),
       (ClassName.Audiobook, Method.read, "Reading the audiobook\n"),
       (ClassName.Audiobook, Method.bookmark, "Bookmarking the audiobook\n"),
       (ClassName.Audiobook, Method.search, "Searching the audiobook\n")]) ∧
    (∀ (before : List Invocation) (i : Invocation) (c : Console), ∃ c1 : Console,
        runAll before c = Except.ok c1 ∧
        runAll (before ++ [i]) c = Except.ok (c1.insert i.message)) ∧
    (∀ p : Paperback, ∃ c : Console,
        (p.open Console.empty >>= p.close >>= p.read >>= p.bookmark) = Except.ok c ∧
        c.writes = ["Opening the paperback\n", "Closing the paperback\n",
          "Reading the paperback\n", "Bookmarking the paperback\n"] ∧
        c.contents = "Opening the paperback\nClosing the paperback\n" ++
          "Reading the paperback\nBookmarking the paperback\n") := by
  refine ⟨?_, Invocation.table, ?_, ?_⟩
  · intro is c
    refine ⟨⟨c.writes ++ is.map Invocation.message⟩, runAll_eq is c, rfl, ?_⟩
    rw [Console.contents_mk_append]
  · intro before i c
    refine ⟨⟨c.writes ++ before.map Invocation.message⟩, runAll_eq before c, ?_⟩
    rw [runAll_eq]
    simp [Console.insert]
  · intro p
    exact ⟨⟨["Opening the paperback\n", "Closing the paperback\n",
      "Reading the paperback\n", "Bookmarking the paperback\n"]⟩, rfl, rfl, by decide⟩

/-- C5: each of the nine member function bodies (four of `Paperback`, five of `Audiobook`)
returns normally and its whole effect is the insertion of one chunk, which is non-empty,
ends with the newline character and contains exactly one newline character. -/
theorem each_operation_writes_one_line (p : Paperback) (a : Audiobook) (s : Stmt)
    (hs : s ∈ [p.open, p.close, p.read, p.bookmark,
      a.open, a.close, a.read, a.bookmark, a.search]) :
    ∃ w : String, Emits s w ∧ w ≠ "" ∧ w.data.getLast? = some newline ∧
      w.data.count newline = 1 := by
  simp only [List.mem_cons, List.mem_singleton, List.not_mem_nil, or_false] at hs
  rcases hs with rfl | rfl | rfl | rfl | rfl | rfl | rfl | rfl | rfl <;>
    exact ⟨_, cout_emits _, by decide, by decide, by decide⟩

/-- Witness for C5 at `Paperback::read`. -/
theorem each_operation_writes_one_line_witness :
    Paperback.read Paperback.mk ∈
        [Paperback.open Paperback.mk, Paperback.close Paperback.mk,
         Paperback.read Paperback.mk, Paperback.bookmark Paperback.mk,
         Audiobook.open Audiobook.mk, Audiobook.close Audiobook.mk,
         Audiobook.read Audiobook.mk, Audiobook.bookmark Audiobook.mk,
         Audiobook.search Audiobook.mk] ∧
    ∃ w : String, Emits (Paperback.read Paperback.mk) w ∧ w ≠ "" ∧
      w.data.getLast? = some newline ∧ w.data.count newline = 1 :=
  ⟨by simp, each_operation_writes_one_line Paperback.mk Audiobook.mk _ (by simp)⟩

/-! ## The capability sets -/

/-- C6: `Readable` declares exactly `open`, `close`, `read`, `bookmark`; `search` is neither
among the operations of `Readable` nor declared by or among the operations of `Paperback`;
the operations client code can invoke on a `Paperback` are the four base ones and those it
can invoke through a `Readable` reference do not include `search`; and a `search` call
through a `Readable` reference (whatever the class of the object) or on a `Paperback` is a
compile error for a missing member, so no statement is ever executed for it. -/
theorem search_absent_from_base_capability :
    declared ClassName.Readable = [Method.open, Method.close, Method.read, Method.bookmark] ∧
    Method.search ∉ operations ClassName.Readable ∧
    Method.search ∉ declared ClassName.Paperback ∧
    Method.search ∉ operations ClassName.Paperback ∧
    Method.all.filter (fun m => decide (checkCall ClassName.Paperback ClassName.Paperback m = none))
      = [Method.open, Method.close, Method.read, Method.bookmark] ∧
    Method.search ∉ Method.all.filter (fun m => decide (staticCheck ClassName.Readable m = none)) ∧
    staticCheck ClassName.Readable Method.search = some CompileError.noMember ∧
    staticCheck ClassName.Paperback Method.search = some CompileError.noMember ∧
    (∀ D : ClassName, ∃ e : CompileError,
        callVia ClassName.Readable D Method.search = Except.error e) ∧
    callVia ClassName.Readable ClassName.Paperback Method.search
      = Except.error CompileError.noMember ∧
    callVia ClassName.Readable ClassName.Audiobook Method.search
      = Except.error CompileError.noMember ∧
    callVia ClassName.Paperback ClassName.Paperback Method.search
      = Except.error CompileError.noMember := by
  refine ⟨rfl, by decide, by decide, by decide, by decide, by decide, by decide, by decide,
    ?_, rfl, rfl, rfl⟩
  intro D
  cases D
  · exact ⟨_, rfl⟩
  · exact ⟨_, rfl⟩
  · exact ⟨_, rfl⟩
  · exact ⟨_, rfl⟩

/-- C7 (what the code does): the operations of `Searchable` are those of `Readable` plus
`search`, neither concrete class is abstract, and virtual dispatch of each base operation on
an `Audiobook` object selects the body written in `Audiobook`; but the members of
`Readable` and `Searchable` are private, so client code that calls `open`, `close`, `read`
or `bookmark` on an `Audiobook` through a `Readable` (or `Searchable`) reference is rejected
by the compiler as an access violation, while the same call on the `Audiobook` itself is
accepted and executes the `Audiobook` body. -/
theorem base_view_call_is_inaccessible :
    operations ClassName.Searchable = operations ClassName.Readable ++ [Method.search] ∧
    isAbstract ClassName.Paperback = false ∧
    isAbstract ClassName.Audiobook = false ∧
    dispatch ClassName.Audiobook Method.open = Audiobook.open Audiobook.mk ∧
    dispatch ClassName.Audiobook Method.close = Audiobook.close Audiobook.mk ∧
    dispatch ClassName.Audiobook Method.read = Audiobook.read Audiobook.mk ∧
    dispatch ClassName.Audiobook Method.bookmark = Audiobook.bookmark Audiobook.mk ∧
    convertible ClassName.Audiobook ClassName.Readable = true ∧
    [Method.open, Method.close, Method.read, Method.bookmark].map
        (fun m => checkCall ClassName.Readable ClassName.Audiobook m)
      = [some CompileError.inaccessible, some CompileError.inaccessible,
         some CompileError.inaccessible, some CompileError.inaccessible] ∧
    [Method.open, Method.close, Method.read, Method.bookmark].map
        (fun m => checkCall ClassName.Searchable ClassName.Audiobook m)
      = [some CompileError.inaccessible, some CompileError.inaccessible,
         some CompileError.inaccessible, some CompileError.inaccessible] ∧
    [Method.open, Method.close, Method.read, Method.bookmark].map
        (fun m => checkCall ClassName.Audiobook ClassName.Audiobook m)
      = [none, none, none, none] ∧
    callVia ClassName.Readable ClassName.Audiobook Method.open
      = Except.error CompileError.inaccessible ∧
    callVia ClassName.Audiobook ClassName.Audiobook Method.open
      = Except.ok (Audiobook.open Audiobook.mk) :=
  ⟨by decide, by decide, by decide, rfl, rfl, rfl, rfl, by decide, by decide, by decide,
    by decide, rfl, rfl⟩

/-- C8: the five member functions of `Audiobook` leave the five listed texts, these are
pairwise different, all five names are invocable on an `Audiobook`, and the map from the
member function name to the text its invocation on an `Audiobook` leaves is injective. -/
theorem audiobook_messages_pairwise_distinct (a : Audiobook) :
    [a.open, a.close, a.read, a.bookmark, a.search].map emitted
      = [some "Opening the audiobook\n", some "Closing the audiobook\n",
         some "Reading the audiobook\n", some "Bookmarking the audiobook\n",
         some "Searching the audiobook\n"] ∧
    ([a.open, a.close, a.read, a.bookmark, a.search].map emitted).Nodup ∧
    (∀ m : Method, checkCall ClassName.Audiobook ClassName.Audiobook m = none) ∧
    Function.Injective (fun m : Method => emitted (dispatch ClassName.Audiobook m)) := by
  cases a
  refine ⟨by decide, by decide, fun m => by cases m <;> decide, ?_⟩
  intro m1 m2
  cases m1 <;> cases m2 <;>
    first
      | (intro _; rfl)
      | (intro h; exact absurd h (by decide))

/-- C9: the invocations are the nine (class, member function) pairs listed; each of them,
from every state of standard output, returns normally having made exactly one insertion;
and `main`, from every state, returns normally with exit status 0 having made exactly one
insertion. -/
theorem no_runtime_error_path :
    Invocation.all.map (fun i => (i.cls, i.method))
      = [(ClassName.Paperback, Method.open), (ClassName.Paperback, Method.close),
         (ClassName.Paperback, Method.read), (ClassName.Paperback, Method.bookmark),
         (ClassName.Audiobook, Method.open), (ClassName.Audiobook, Method.close),
         (ClassName.Audiobook, Method.read), (ClassName.Audiobook, Method.bookmark),
         (ClassName.Audiobook, Method.search)] ∧
    (∀ i : Invocation, i ∈ Invocation.all) ∧
    (∀ (i : Invocation) (c : Console), ∃ c1 : Console,
        i.run c = Except.ok c1 ∧ c1.writes.length = c.writes.length + 1) ∧
    (∀ c : Console, ∃ c1 : Console,
        main c = Except.ok (0, c1) ∧ c1.writes.length = c.writes.length + 1) := by
  refine ⟨rfl, Invocation.mem_all, ?_, ?_⟩
  · intro i c
    exact ⟨c.insert i.message, Invocation.run_eq i c, by simp [Console.insert]⟩
  · intro c
    exact ⟨c.insert "Searching the audiobook\n", rfl, by simp [Console.insert]⟩

/-- C10: there are nine invocations, their nine texts are pairwise different, and the map
from a finite sequence of invocations to the text it leaves on initially empty standard
output is injective. -/
theorem output_identifies_invocations :
    Invocation.all.length = 9 ∧
    (∀ i : Invocation, i ∈ Invocation.all) ∧
    Invocation.all.Nodup ∧
    (Invocation.all.map (fun i => emitted i.run)).Nodup ∧
    Function.Injective (fun i : Invocation => emitted i.run) ∧
    Function.Injective
      (fun is : List Invocation => Except.map Console.contents (runAll is Console.empty)) := by
  refine ⟨rfl, Invocation.mem_all, ?_, by decide, ?_, runAll_output_injective⟩
  · simp [Invocation.all, Invocation.ext_iff_pair]
  · intro i j h
    have h1 : emitted i.run = emitted j.run := h
    rw [emitted_run, emitted_run] at h1
    exact Invocation.message_injective i j (Option.some.inj h1)

end InterfaceSegregation
